import Mathlib

/-!
Verification of the YouTube-to-MP3 batch converter (Express backend
`server.js` plus React batch driver `App.jsx`) against its natural-language
specification.  The backend endpoints are shallowly embedded as pure Lean
functions; external effects (the csv parser stream, the yt-dlp subprocess,
the filesystem, timer firing) appear as explicit inputs or state.
-/

namespace YTMP3

/-! ## JavaScript string primitives

Models of the JS string operations the backend uses: `trim`,
`toUpperCase` comparison, `includes`, and truthiness of an optional
string-valued request field. -/

/-- Whitespace as matched by JS `\s` / trimmed by `String.prototype.trim`
(ASCII portion). -/
def isJsWs (c : Char) : Bool :=
  c = ' ' || c = '\t' || c = '\n' || c = '\r' || c = '\x0b' || c = '\x0c'

/-- JS `\w`: letters, digits, underscore (ASCII). -/
def isWordChar (c : Char) : Bool :=
  c.isAlpha || c.isDigit || c = '_'

/-- Drop leading JS whitespace. -/
def ltrimList (l : List Char) : List Char := l.dropWhile isJsWs

/-- Drop trailing JS whitespace. -/
def rtrimList (l : List Char) : List Char :=
  ((l.reverse).dropWhile isJsWs).reverse

/-- JS `String.prototype.trim` on character lists. -/
def jsTrimList (l : List Char) : List Char := rtrimList (ltrimList l)

/-- JS `String.prototype.trim`. -/
def jsTrim (s : String) : String := ⟨jsTrimList s.data⟩

/-- Contiguous-substring test on character lists (JS `String.prototype.includes`). -/
def containsSub (pat : List Char) : List Char → Bool
  | [] => pat.isEmpty
  | c :: t => pat.isPrefixOf (c :: t) || containsSub pat t

/-- JS `s.includes(pat)`. -/
def strIncludes (s pat : String) : Bool := containsSub pat.data s.data

/-- JS truthiness of an optional string field of a request body:
`undefined` and the empty string are falsy. -/
def truthyStr : Option String → Bool
  | none => false
  | some s => decide (s ≠ "")

/-- JS `String.prototype.toUpperCase` (ASCII model). -/
def jsToUpper (s : String) : String := ⟨s.data.map Char.toUpper⟩

/-! ## Link Extractor (`POST /api/parse-csv`, server.js lines 74-124)

The CSV text format itself is delegated to the external `csv-parse`
library (`columns: true, skip_empty_lines: true, trim: true`), which the
spec places out of scope.  We model its output: the header field names and
the data rows it yields (raw field texts; the parser's `trim: true`
option is applied where the library applies it, i.e. to each field value
read out of a record), or a parse failure carrying a reason. -/

structure LinkRecord where
  row : Nat
  link : String
deriving Repr, DecidableEq

/-- `Object.keys(record).find(key => key.toUpperCase() === 'LINKS')`:
index of the first header field whose uppercase form is `LINKS`. -/
def findLinkColumn (header : List String) : Option Nat :=
  header.findIdx? (fun k => jsToUpper k = "LINKS")

/-- `record[linkColumn]`: the field of the yielded record under the LINKS
column.  With `columns: true` the record maps header names to the row's
field values; with `trim: true` each value is trimmed. -/
def recordValue (header : List String) (r : List String) : Option String :=
  match findLinkColumn header with
  | none => none
  | some i => (r.get? i).map jsTrim

/-- The accumulation loop of `/api/parse-csv` (lines 90-109): walk the
records the parser yields, keeping a row counter that starts at 2 and
increments for every record, pushing a `{row, link}` entry for records
whose LINKS value is truthy and whose trimmed text contains a recognized
video-host marker. -/
def extractLinks (header : List String) : List (List String) → Nat → List LinkRecord
  | [], _ => []
  | r :: rs, rowNumber =>
    let rest := extractLinks header rs (rowNumber + 1)
    match recordValue header r with
    | none => rest
    | some v =>
      if v ≠ "" then
        let link := jsTrim v
        if strIncludes link "youtube.com" || strIncludes link "youtu.be" then
          { row := rowNumber, link := link } :: rest
        else rest
      else rest

/-- The link list `/api/parse-csv` computes from the parser's output. -/
def parseCsvLinks (header : List String) (rows : List (List String)) : List LinkRecord :=
  extractLinks header rows 2

/-- Response of `/api/parse-csv`: success with the link list and its
length, or the error payload of the catch block (lines 117-123). -/
inductive CsvResponse where
  | ok (links : List LinkRecord) (totalLinks : Nat)
  | err (error details : String)
deriving Repr, DecidableEq

/-- The `/api/parse-csv` endpoint.  `parseFailure` is `some reason` when
the csv parser throws (possibly after yielding some records); the catch
block then answers with the error payload and the accumulated `links`
array is discarded, never sent. -/
def parseCsvEndpoint (header : List String) (rows : List (List String))
    (parseFailure : Option String) : CsvResponse :=
  match parseFailure with
  | some reason => .err "Failed to parse CSV file" reason
  | none => .ok (parseCsvLinks header rows) (parseCsvLinks header rows).length

/-! ## Specification-side Link Extractor

Stated from the spec's words for the refinement claim: the rows whose
value in the LINKS column is non-empty after trimming and contains a
recognized host marker, as `{row, link}` records in input order, the row
number being the row's position among the parser's records plus 2. -/

/-- Modelled from the spec: whether a data row qualifies and, if so, the
link value it contributes. -/
def specQualifyingLink (header : List String) (r : List String) : Option String :=
  match findLinkColumn header with
  | none => none
  | some i =>
    match r.get? i with
    | none => none
    | some raw =>
      let v := jsTrim raw
      if v ≠ "" && (strIncludes v "youtube.com" || strIncludes v "youtu.be") then
        some v
      else none

/-- Modelled from the spec: the qualifying rows in input order, numbered
from 2 over every data row the parser yields. -/
def specLinks (header : List String) (rows : List (List String)) : List LinkRecord :=
  rows.enum.filterMap (fun p =>
    (specQualifyingLink header p.2).map (fun v => { row := p.1 + 2, link := v }))

/-! ### Trimming is idempotent (needed to relate the parser's field trim
to the endpoint's second trim) -/

theorem dropWhile_idem (p : α → Bool) (l : List α) :
    (l.dropWhile p).dropWhile p = l.dropWhile p := by
  induction l with
  | nil => rfl
  | cons c t ih =>
    by_cases h : p c
    · simp [List.dropWhile_cons, h, ih]
    · simp [List.dropWhile_cons, h]

theorem ltrimList_idem (l : List Char) : ltrimList (ltrimList l) = ltrimList l :=
  dropWhile_idem _ l

theorem rtrimList_idem (l : List Char) : rtrimList (rtrimList l) = rtrimList l := by
  unfold rtrimList
  rw [List.reverse_reverse, dropWhile_idem]

theorem dropWhile_append_singleton (p : α → Bool) (l : List α) (a : α) (h : p a = false) :
    (l ++ [a]).dropWhile p = l.dropWhile p ++ [a] := by
  induction l with
  | nil => simp [List.dropWhile_cons, h]
  | cons c t ih =>
    by_cases hc : p c
    · simp [List.dropWhile_cons, hc, ih]
    · simp [List.dropWhile_cons, hc]

/-- After a left trim, a right trim does not disturb the (non-whitespace)
head, so a further left trim is the identity. -/
theorem ltrim_rtrim_ltrim (l : List Char) :
    ltrimList (rtrimList (ltrimList l)) = rtrimList (ltrimList l) := by
  rcases h : ltrimList l with _ | ⟨c, t⟩
  · rfl
  · have hc : isJsWs c = false := by
      have := List.head?_dropWhile_not isJsWs l
      unfold ltrimList at h
      rw [h] at this
      simpa using this
    unfold rtrimList
    rw [List.reverse_cons, dropWhile_append_singleton _ _ _ hc]
    rw [List.reverse_append]
    simp [ltrimList, List.dropWhile_cons, hc]

theorem jsTrimList_idem (l : List Char) : jsTrimList (jsTrimList l) = jsTrimList l := by
  unfold jsTrimList
  rw [ltrim_rtrim_ltrim, rtrimList_idem]

theorem jsTrim_idem (s : String) : jsTrim (jsTrim s) = jsTrim s := by
  unfold jsTrim
  exact congrArg String.mk (jsTrimList_idem s.data)

/-! ### The extraction loop agrees with the spec-side description -/

theorem extractLinks_eq_specAux (header : List String) (rows : List (List String)) :
    ∀ (k : Nat),
      extractLinks header rows (k + 2) =
        (rows.enumFrom k).filterMap (fun p =>
          (specQualifyingLink header p.2).map (fun v => LinkRecord.mk (p.1 + 2) v)) := by
  induction rows with
  | nil => intro k; rfl
  | cons r rs ih =>
    intro k
    have ih1 := ih (k + 1)
    have hstep : k + 2 + 1 = k + 1 + 2 := by omega
    rw [List.enumFrom_cons, List.filterMap_cons]
    simp only [extractLinks]
    rw [hstep, ih1]
    have hidem : ∀ raw : String, jsTrim (jsTrim raw) = jsTrim raw := jsTrim_idem
    cases hc : findLinkColumn header with
    | none => simp [recordValue, specQualifyingLink, hc]
    | some i =>
      cases hg : r[i]? with
      | none => simp [recordValue, specQualifyingLink, hc, hg]
      | some raw =>
        by_cases hne : jsTrim raw = ""
        · simp [recordValue, specQualifyingLink, hc, hg, hne]
        · by_cases h1 : strIncludes (jsTrim raw) "youtube.com" = true
          · simp [recordValue, specQualifyingLink, hc, hg, hne, h1, hidem]
          · by_cases h2 : strIncludes (jsTrim raw) "youtu.be" = true
            · simp [recordValue, specQualifyingLink, hc, hg, hne, h1, h2, hidem]
            · simp [recordValue, specQualifyingLink, hc, hg, hne, h1, h2, hidem]

/-- C1: for every CSV input whose header contains a case-variant of
`LINKS`, the Link Extractor returns exactly the parser-yielded data rows
whose value in that column is non-empty after trimming and contains a
recognized video-host marker, as `{row, link}` records in input order,
numbered from 2 over every yielded data row, matching rows or not. -/
theorem csv_link_extraction_matches_spec (header : List String) (rows : List (List String))
    (_hcol : ∃ k ∈ header, jsToUpper k = "LINKS") :
    parseCsvLinks header rows = specLinks header rows := by
  have h0 := extractLinks_eq_specAux header rows 0
  unfold parseCsvLinks specLinks
  rw [List.enum_eq_enumFrom]
  exact h0

/-- Witness for C1 at a concrete CSV: header `Links`, one qualifying row,
one non-matching row (which still advances the row counter), and a second
qualifying row numbered 4. -/
theorem csv_link_extraction_matches_spec_witness :
    (∃ k ∈ ["Links"], jsToUpper k = "LINKS") ∧
      parseCsvLinks ["Links"]
          [[" https://youtu.be/a "], ["hello world"], ["https://www.youtube.com/watch?v=b"]] =
        specLinks ["Links"]
          [[" https://youtu.be/a "], ["hello world"], ["https://www.youtube.com/watch?v=b"]] ∧
      parseCsvLinks ["Links"]
          [[" https://youtu.be/a "], ["hello world"], ["https://www.youtube.com/watch?v=b"]] =
        [{ row := 2, link := "https://youtu.be/a" },
         { row := 4, link := "https://www.youtube.com/watch?v=b" }] :=
  ⟨⟨"Links", by decide, by decide⟩,
   csv_link_extraction_matches_spec _ _ ⟨"Links", by decide, by decide⟩,
   by decide⟩

/-- C5: a well-formed CSV whose header has no field whose uppercase form
is `LINKS` yields a successful, empty response, not an error. -/
theorem missing_links_column_yields_empty_success (header : List String)
    (rows : List (List String)) (h : ∀ k ∈ header, jsToUpper k ≠ "LINKS") :
    parseCsvEndpoint header rows none = CsvResponse.ok [] 0 := by
  have hcol : findLinkColumn header = none := by
    unfold findLinkColumn
    rw [List.findIdx?_eq_none_iff]
    intro x hx
    simpa using h x hx
  have hempty : ∀ (rs : List (List String)) (n : Nat), extractLinks header rs n = [] := by
    intro rs
    induction rs with
    | nil => intro n; rfl
    | cons r t ih => intro n; simp [extractLinks, recordValue, hcol, ih]
  simp [parseCsvEndpoint, parseCsvLinks, hempty]

/-- Witness for C5 at a concrete CSV with no LINKS-named column. -/
theorem missing_links_column_yields_empty_success_witness :
    parseCsvEndpoint ["Name", "Url"] [["a", "https://youtu.be/x"]] none = CsvResponse.ok [] 0 :=
  missing_links_column_yields_empty_success _ _ (by decide)

/-- C6: a CSV whose structure the parser cannot read fails with the parse
error payload carrying the underlying reason, and the caller never
receives a (partial) link list alongside it. -/
theorem malformed_csv_parse_error (header : List String) (rows : List (List String))
    (reason : String) :
    parseCsvEndpoint header rows (some reason) =
        CsvResponse.err "Failed to parse CSV file" reason ∧
      ∀ links total, parseCsvEndpoint header rows (some reason) ≠ CsvResponse.ok links total := by
  refine ⟨rfl, ?_⟩
  intro links total h
  simp [parseCsvEndpoint] at h

/-! ## Download endpoint (`POST /api/download`, server.js lines 170-331)

The title sanitizer (lines 199-202):
`stdout.trim().replace(/[^\w\s-]/g, '').replace(/\s+/g, '_').substring(0, 50)`. -/

/-- First replace: drop every character that is not a word character,
whitespace, or a hyphen (the regex `[^\w\s-]` with empty replacement). -/
def removeSpecialList (l : List Char) : List Char :=
  l.filter (fun c => isWordChar c || isJsWs c || c = '-')

/-- Second replace, `\s+` to `_`: each maximal whitespace run becomes a
single underscore.  The flag records whether we are inside a run. -/
def collapseWsAux : Bool → List Char → List Char
  | _, [] => []
  | inWs, c :: t =>
    if isJsWs c then
      if inWs then collapseWsAux true t else '_' :: collapseWsAux true t
    else c :: collapseWsAux false t

def collapseWsList (l : List Char) : List Char := collapseWsAux false l

/-- The filename stem computed from yt-dlp's `--get-title` output. -/
def sanitizeTitle (s : String) : String :=
  ⟨(collapseWsList (removeSpecialList (jsTrimList s.data))).take 50⟩

/-- `cancelledSessions.has(sessionId)`: `undefined` is never a member of
the set (the cancel endpoint only adds truthy identifiers). -/
def hasCancelled (cancelSet : List String) : Option String → Bool
  | none => false
  | some s => decide (s ∈ cancelSet)

/-- Result of a `/api/download` call as seen by the caller. -/
inductive DLResult where
  | missingUrl
  | cancelled
  | failed (error details : String)
  | streamed (filename : String) (contentLength : Nat)
deriving Repr, DecidableEq

/-- External events of one `/api/download` call.  The three cancel-set
snapshots are the contents of `cancelledSessions` at the moments the three
checkpoints (lines 186, 209, 281) execute; `titleQuery` is the stdout of
the metadata query, or `none` on its timeout/failure; `procResult` is the
subprocess outcome (`error` for a spawn error or a non-zero exit with its
message); after the subprocess, `mp3Exists` says whether the expected
output path exists, and `extraFiles` lists the other files in the temp
directory carrying this call's `audio_<timestamp>` prefix (what
`readdirSync(...).filter(startsWith)` sees when the expected path is
missing); `fileSize` is the byte size `statSync` reports for the produced
file. -/
structure DownloadEnv where
  cancelSet1 : List String
  titleQuery : Option String
  cancelSet2 : List String
  procResult : Except String Unit
  mp3Exists : Bool
  extraFiles : List String
  cancelSet3 : List String
  fileSize : Nat
deriving Repr

/-- What a `/api/download` call leaves behind: the response, whether the
call registered its subprocess in `activeProcesses` (line 232, only under
a truthy `sessionId`), whether the expected output file survives the
call, and which prefix-named extra files survive it. -/
structure DLOutput where
  result : DLResult
  registered : Bool
  expectedSurvives : Bool
  extraSurvivors : List String
deriving Repr, DecidableEq

/-- The `/api/download` handler.  Follows server.js lines 170-331: url
presence test; checkpoint 1; title resolution with fallback to
`audio_<timestamp>`; checkpoint 2; subprocess (registered under a truthy
session id); on subprocess error the catch block runs `cleanup(expectedMp3)`;
on success, a missing expected file is recovered by renaming the first
prefix-matching extra file to it, or the call throws into the catch block;
checkpoint 3 discards the file and answers 499; otherwise the file is
streamed with `Content-Length` from `statSync` and a filename header
`<title>.mp3`, and both the stream-end and stream-error handlers run
`cleanup(expectedMp3)`. -/
def requestDownload (url sessionId : Option String) (timestamp : Nat)
    (env : DownloadEnv) : DLOutput :=
  if !truthyStr url then
    { result := .missingUrl, registered := false,
      expectedSurvives := false, extraSurvivors := [] }
  else if hasCancelled env.cancelSet1 sessionId then
    { result := .cancelled, registered := false,
      expectedSurvives := false, extraSurvivors := [] }
  else
    let videoTitle :=
      match env.titleQuery with
      | some out => sanitizeTitle out
      | none => "audio_" ++ toString timestamp
    if hasCancelled env.cancelSet2 sessionId then
      { result := .cancelled, registered := false,
        expectedSurvives := false, extraSurvivors := [] }
    else
      let registered := truthyStr sessionId
      match env.procResult with
      | .error e =>
        { result := .failed "Failed to download/convert video" e,
          registered := registered, expectedSurvives := false,
          extraSurvivors := env.extraFiles }
      | .ok _ =>
        if !env.mp3Exists && env.extraFiles.isEmpty then
          { result := .failed "Failed to download/convert video" "MP3 file was not created",
            registered := registered, expectedSurvives := false,
            extraSurvivors := [] }
        else
          let extras := if env.mp3Exists then env.extraFiles else env.extraFiles.tail
          if hasCancelled env.cancelSet3 sessionId then
            { result := .cancelled, registered := registered,
              expectedSurvives := false, extraSurvivors := extras }
          else
            { result := .streamed (videoTitle ++ ".mp3") env.fileSize,
              registered := registered, expectedSurvives := false,
              extraSurvivors := extras }

/-! ## Cancel / clear-cancel endpoints (server.js lines 337-369) -/

/-- Shared mutable session stores: the `cancelledSessions` set and the
`activeProcesses` map (session id to process id). -/
structure SessionState where
  cancelled : List String
  active : List (String × Nat)
deriving Repr, DecidableEq

/-- `Set.prototype.add`. -/
def setAdd (s : String) (l : List String) : List String :=
  if s ∈ l then l else l ++ [s]

/-- `Set.prototype.delete`. -/
def setDelete (s : String) (l : List String) : List String :=
  l.filter (fun x => x ≠ s)

/-- `POST /api/cancel` (ignoring the five-minute timer, modelled
separately below): under a truthy session id, add it to
`cancelledSessions` and kill the process registered for it in
`activeProcesses`, if any.  Returns the new state and the killed process
ids. -/
def cancelSession (sid : Option String) (st : SessionState) : SessionState × List Nat :=
  match sid with
  | none => (st, [])
  | some s =>
    if s = "" then (st, [])
    else
      ({ st with cancelled := setAdd s st.cancelled },
       match st.active.lookup s with
       | some pid => [pid]
       | none => [])

/-- `POST /api/clear-cancel`: under a truthy session id, remove it from
`cancelledSessions`. -/
def clearCancelSession (sid : Option String) (st : SessionState) : SessionState :=
  match sid with
  | none => st
  | some s => if s = "" then st else { st with cancelled := setDelete s st.cancelled }

/-! ### Helper lemmas about the download handler -/

/-- An absent session id is never a member of `cancelledSessions`. -/
theorem hasCancelled_none (cancelSet : List String) : hasCancelled cancelSet none = false := rfl

/-- If none of the three checkpoint snapshots marks the session, the call
never answers with the cancelled status. -/
theorem requestDownload_not_cancelled (url sid : Option String) (ts : Nat) (env : DownloadEnv)
    (h1 : hasCancelled env.cancelSet1 sid = false)
    (h2 : hasCancelled env.cancelSet2 sid = false)
    (h3 : hasCancelled env.cancelSet3 sid = false) :
    (requestDownload url sid ts env).result ≠ DLResult.cancelled := by
  unfold requestDownload
  by_cases hu : truthyStr url = true
  · cases hp : env.procResult with
    | error e => simp [hu, h1, h2, h3, hp]
    | ok u =>
      by_cases hm : env.mp3Exists = true
      · simp [hu, h1, h2, h3, hp, hm]
      · by_cases he : env.extraFiles.isEmpty = true
        · simp [hu, h1, h2, h3, hp, hm, he]
        · simp [hu, h1, h2, h3, hp, hm, he]
  · simp at hu
    simp [hu]

/-- The call answers `missingUrl` exactly when the url field is falsy. -/
theorem requestDownload_missingUrl_iff (url sid : Option String) (ts : Nat) (env : DownloadEnv) :
    (requestDownload url sid ts env).result = DLResult.missingUrl ↔ truthyStr url = false := by
  constructor
  · intro h
    by_contra hne
    rw [Bool.not_eq_false] at hne
    revert h
    unfold requestDownload
    by_cases h1 : hasCancelled env.cancelSet1 sid = true
    · simp [hne, h1]
    · by_cases h2 : hasCancelled env.cancelSet2 sid = true
      · simp [hne, h1, h2]
      · cases hp : env.procResult with
        | error e => simp [hne, h1, h2, hp]
        | ok u =>
          by_cases hm : env.mp3Exists = true
          · by_cases h3 : hasCancelled env.cancelSet3 sid = true
            · simp [hne, h1, h2, hp, hm, h3]
            · simp [hne, h1, h2, hp, hm, h3]
          · by_cases he : env.extraFiles.isEmpty = true
            · simp [hne, h1, h2, hp, hm, he]
            · by_cases h3 : hasCancelled env.cancelSet3 sid = true
              · simp [hne, h1, h2, hp, hm, he, h3]
              · simp [hne, h1, h2, hp, hm, he, h3]
  · intro h
    unfold requestDownload
    simp [h]

/-- The subprocess handle is recorded in `activeProcesses` only under a
truthy session id. -/
theorem requestDownload_registered (url sid : Option String) (ts : Nat) (env : DownloadEnv)
    (h : truthyStr sid = false) : (requestDownload url sid ts env).registered = false := by
  unfold requestDownload
  simp only [h]
  repeat' split
  all_goals rfl

/-- A pid returned by `List.lookup` is one of the recorded values. -/
theorem lookup_mem_values (s : String) (pid : Nat) :
    ∀ (l : List (String × Nat)), l.lookup s = some pid → pid ∈ l.map Prod.snd := by
  intro l
  induction l with
  | nil => intro h; simp [List.lookup] at h
  | cons a t ih =>
    intro h
    by_cases he : s = a.1
    · rw [List.lookup_cons] at h
      simp [he.symm] at h
      simp [h]
    · rw [List.lookup_cons] at h
      have hbe : (s == a.1) = false := by
        simpa using he
      rw [hbe] at h
      exact List.mem_cons_of_mem _ (ih h)

/-! ## Claim C3 -/

/-- Whether the call reaches the third cancellation checkpoint (line 281):
the subprocess succeeded and the output file exists or was recovered. -/
def reachesFinalCheckpoint (env : DownloadEnv) : Bool :=
  (match env.procResult with | .ok _ => true | .error _ => false) &&
  (env.mp3Exists || !env.extraFiles.isEmpty)

/-- C3: a session marked cancelled at any of the three checkpoints the
call executes (entry; after the metadata query; after the subprocess, when
that checkpoint is reached) makes the call answer the distinct cancelled
status, never a saved/streamed outcome, and the expected temporary file
does not survive the call. -/
theorem cancel_checkpoints_yield_cancelled (url sid : Option String) (ts : Nat)
    (env : DownloadEnv) (hurl : truthyStr url = true)
    (hcan : (hasCancelled env.cancelSet1 sid || hasCancelled env.cancelSet2 sid ||
      (reachesFinalCheckpoint env && hasCancelled env.cancelSet3 sid)) = true) :
    (requestDownload url sid ts env).result = DLResult.cancelled ∧
      (∀ fn len, (requestDownload url sid ts env).result ≠ DLResult.streamed fn len) ∧
      (requestDownload url sid ts env).expectedSurvives = false := by
  have hres : (requestDownload url sid ts env).result = DLResult.cancelled ∧
      (requestDownload url sid ts env).expectedSurvives = false := by
    unfold requestDownload
    by_cases h1 : hasCancelled env.cancelSet1 sid = true
    · simp [hurl, h1]
    · by_cases h2 : hasCancelled env.cancelSet2 sid = true
      · simp [hurl, h1, h2]
      · simp only [h1, h2, reachesFinalCheckpoint, Bool.false_or] at hcan
        rw [Bool.and_eq_true] at hcan
        obtain ⟨hreach, h3⟩ := hcan
        cases hp : env.procResult with
        | error e => rw [hp] at hreach; simp at hreach
        | ok u =>
          rw [hp] at hreach
          rw [Bool.and_eq_true] at hreach
          by_cases hm : env.mp3Exists = true
          · simp [hurl, h1, h2, hp, hm, h3]
          · have hne : env.extraFiles.isEmpty = false := by
              rcases hreach.2 with h
              rw [Bool.or_eq_true] at h
              rcases h with h | h
              · exact absurd h hm
              · simpa using h
            simp [hurl, h1, h2, hp, hm, hne, h3]
  refine ⟨hres.1, ?_, hres.2⟩
  intro fn len
  rw [hres.1]
  intro h
  exact DLResult.noConfusion h

/-- Witness for C3: a concrete call whose session is marked cancelled at
the final checkpoint returns the cancelled status and leaves no expected
file behind. -/
theorem cancel_checkpoints_yield_cancelled_witness :
    (requestDownload (some "u") (some "s") 1
        { cancelSet1 := [], titleQuery := some "T", cancelSet2 := [],
          procResult := Except.ok (), mp3Exists := true, extraFiles := [],
          cancelSet3 := ["s"], fileSize := 3 }).result = DLResult.cancelled ∧
      (requestDownload (some "u") (some "s") 1
        { cancelSet1 := [], titleQuery := some "T", cancelSet2 := [],
          procResult := Except.ok (), mp3Exists := true, extraFiles := [],
          cancelSet3 := ["s"], fileSize := 3 }).expectedSurvives = false :=
  ⟨(cancel_checkpoints_yield_cancelled (some "u") (some "s") 1 _ (by decide) (by decide)).1,
   (cancel_checkpoints_yield_cancelled (some "u") (some "s") 1 _ (by decide) (by decide)).2.2⟩

/-! ## Claim C9 -/

/-- C9: a download request is rejected before any work exactly when the
url field is falsy; a request with a url but no session id runs the full
download, is never judged cancelled at any checkpoint, and never records
its subprocess, while the cancel endpoint only ever kills recorded
subprocesses — so such a request cannot be cancelled or killed through
`/api/cancel`. -/
theorem no_session_request_behavior :
    (∀ (url sid : Option String) (ts : Nat) (env : DownloadEnv),
        (requestDownload url sid ts env).result = DLResult.missingUrl ↔
          truthyStr url = false) ∧
      (∀ (url : Option String) (ts : Nat) (env : DownloadEnv), truthyStr url = true →
        (requestDownload url none ts env).result ≠ DLResult.cancelled ∧
          (requestDownload url none ts env).registered = false) ∧
      (∀ (sid : Option String) (st : SessionState) (pid : Nat),
        pid ∈ (cancelSession sid st).2 → pid ∈ st.active.map Prod.snd) := by
  refine ⟨requestDownload_missingUrl_iff, ?_, ?_⟩
  · intro url ts env _hurl
    exact ⟨requestDownload_not_cancelled url none ts env rfl rfl rfl,
      requestDownload_registered url none ts env rfl⟩
  · intro sid st pid hmem
    cases sid with
    | none => simp [cancelSession] at hmem
    | some s =>
      by_cases hs : s = ""
      · simp [cancelSession, hs] at hmem
      · simp only [cancelSession, hs, if_false] at hmem
        revert hmem
        cases hl : st.active.lookup s with
        | none => intro hmem; simp at hmem
        | some pid2 =>
          intro hmem
          simp at hmem
          subst hmem
          exact lookup_mem_values s pid st.active hl

/-- Witness for C9: concrete instances of the three parts. -/
theorem no_session_request_behavior_witness :
    ((requestDownload (some "u") none 1
        { cancelSet1 := ["a"], titleQuery := some "T", cancelSet2 := ["a"],
          procResult := Except.ok (), mp3Exists := true, extraFiles := [],
          cancelSet3 := ["a"], fileSize := 3 }).result ≠ DLResult.cancelled) ∧
      ((requestDownload (some "u") none 1
        { cancelSet1 := ["a"], titleQuery := some "T", cancelSet2 := ["a"],
          procResult := Except.ok (), mp3Exists := true, extraFiles := [],
          cancelSet3 := ["a"], fileSize := 3 }).registered = false) :=
  (no_session_request_behavior.2.1 (some "u") 1 _ (by decide))

/-! ## Claim C2

The filename pipeline the claim describes differs from the one the code
implements, so the claim is refuted and an amended statement proved. -/

/-- Modelled from the claim's words: derive the filename by replacing
every non-alphanumeric character of the resolved title with an
underscore, truncating to 50 characters, and appending `.mp3`. -/
def specClaimFilename (title : String) : String :=
  String.mk ((title.data.map (fun c => if c.isAlphanum then c else '_')).take 50) ++ ".mp3"

/-- C2 counterexample: with resolved title `a.b` the code streams the file
as `ab.mp3` (the dot is removed), while the claim's rule produces
`a_b.mp3`. -/
theorem filename_rule_counterexample :
    (requestDownload (some "u") none 1
        { cancelSet1 := [], titleQuery := some "a.b", cancelSet2 := [],
          procResult := Except.ok (), mp3Exists := true, extraFiles := [],
          cancelSet3 := [], fileSize := 5 }).result = DLResult.streamed "ab.mp3" 5 ∧
      specClaimFilename "a.b" = "a_b.mp3" ∧
      ("ab.mp3" : String) ≠ "a_b.mp3" :=
  ⟨by decide, by decide, by decide⟩

/-- Characters surviving the sanitizer are word characters or hyphens. -/
theorem mem_collapseWsAux (c : Char) :
    ∀ (l : List Char) (b : Bool), c ∈ collapseWsAux b l →
      c = '_' ∨ (c ∈ l ∧ isJsWs c = false) := by
  intro l
  induction l with
  | nil => intro b h; simp [collapseWsAux] at h
  | cons a t ih =>
    intro b h
    by_cases hw : isJsWs a = true
    · cases b with
      | true =>
        rw [collapseWsAux, if_pos hw] at h
        simp only [if_true] at h
        rcases ih true h with h1 | h2
        · exact Or.inl h1
        · exact Or.inr ⟨List.mem_cons_of_mem _ h2.1, h2.2⟩
      | false =>
        rw [collapseWsAux, if_pos hw] at h
        simp only [Bool.false_eq_true, if_false] at h
        rcases List.mem_cons.mp h with h1 | h1
        · exact Or.inl h1
        · rcases ih true h1 with h2 | h3
          · exact Or.inl h2
          · exact Or.inr ⟨List.mem_cons_of_mem _ h3.1, h3.2⟩
    · rw [collapseWsAux, if_neg hw] at h
      rcases List.mem_cons.mp h with h1 | h1
      · subst h1
        exact Or.inr ⟨List.mem_cons_self _ _, by simpa using hw⟩
      · rcases ih false h1 with h2 | h3
        · exact Or.inl h2
        · exact Or.inr ⟨List.mem_cons_of_mem _ h3.1, h3.2⟩

theorem sanitizeTitle_chars (t : String) :
    ∀ c ∈ (sanitizeTitle t).data, isWordChar c = true ∨ c = '-' := by
  intro c hc
  have hc2 : c ∈ collapseWsList (removeSpecialList (jsTrimList t.data)) :=
    (List.take_sublist 50 _).subset hc
  rcases mem_collapseWsAux c _ false hc2 with h | h
  · subst h
    exact Or.inl rfl
  · have hmem := List.mem_filter.mp h.1
    have hp := hmem.2
    rw [Bool.or_eq_true, Bool.or_eq_true] at hp
    rcases hp with (hw | hs) | hh
    · exact Or.inl hw
    · rw [h.2] at hs
      exact absurd hs (by simp)
    · exact Or.inr (by simpa using hh)

theorem sanitizeTitle_length (t : String) : (sanitizeTitle t).length ≤ 50 := by
  show (List.take 50 _).length ≤ 50
  rw [List.length_take]
  exact Nat.min_le_left _ _

/-- C2 amended: on the streaming path the suggested filename is the
resolved title trimmed, stripped of characters other than word
characters, whitespace and hyphens, with each whitespace run replaced by
one underscore, truncated to 50 characters and suffixed `.mp3`; its stem
is at most 50 characters, all word characters or hyphens; and the content
length equals the produced file's byte size. -/
theorem filename_and_length_amended (url sid : Option String) (ts : Nat)
    (env : DownloadEnv) (t : String) (hurl : truthyStr url = true)
    (htitle : env.titleQuery = some t)
    (h1 : hasCancelled env.cancelSet1 sid = false)
    (h2 : hasCancelled env.cancelSet2 sid = false)
    (h3 : hasCancelled env.cancelSet3 sid = false)
    (hproc : env.procResult = Except.ok ())
    (hfound : (env.mp3Exists || !env.extraFiles.isEmpty) = true) :
    (requestDownload url sid ts env).result =
        DLResult.streamed (sanitizeTitle t ++ ".mp3") env.fileSize ∧
      (sanitizeTitle t).length ≤ 50 ∧
      (∀ c ∈ (sanitizeTitle t).data, isWordChar c = true ∨ c = '-') := by
  refine ⟨?_, sanitizeTitle_length t, sanitizeTitle_chars t⟩
  unfold requestDownload
  by_cases hm : env.mp3Exists = true
  · simp [hurl, htitle, h1, h2, h3, hproc, hm]
  · have hne : env.extraFiles.isEmpty = false := by
      rw [Bool.or_eq_true] at hfound
      rcases hfound with h | h
      · exact absurd h hm
      · simpa using h
    simp [hurl, htitle, h1, h2, h3, hproc, hm, hne]

/-- Witness for the amended C2 at a concrete title with spaces and
parentheses. -/
theorem filename_and_length_amended_witness :
    (requestDownload (some "u") (some "s") 2
        { cancelSet1 := [], titleQuery := some "My Song (Live)", cancelSet2 := [],
          procResult := Except.ok (), mp3Exists := true, extraFiles := [],
          cancelSet3 := [], fileSize := 7 }).result =
      DLResult.streamed "My_Song_Live.mp3" 7 := by
  have h := (filename_and_length_amended (some "u") (some "s") 2
    { cancelSet1 := [], titleQuery := some "My Song (Live)", cancelSet2 := [],
      procResult := Except.ok (), mp3Exists := true, extraFiles := [],
      cancelSet3 := [], fileSize := 7 }
    "My Song (Live)" (by decide) rfl (by decide) (by decide) (by decide) rfl (by decide)).1
  rw [h]
  decide

/-! ## Claim C4 -/

/-- C4 counterexample: a failed subprocess (for instance one killed by a
cancel) that left a partial file under another prefix name; the catch
block removes only the expected path, so the partial file survives the
attempt. -/
theorem temp_file_cleanup_counterexample :
    (requestDownload (some "u") (some "s") 7
        { cancelSet1 := [], titleQuery := some "T", cancelSet2 := [],
          procResult := Except.error "yt-dlp exited with code 1: killed",
          mp3Exists := false, extraFiles := ["audio_7.mp3.part"],
          cancelSet3 := [], fileSize := 0 }).extraSurvivors = ["audio_7.mp3.part"] ∧
      (["audio_7.mp3.part"] : List String) ≠ [] :=
  ⟨by decide, by decide⟩

/-- C4 amended: on every exit path the expected output file of the
attempt does not survive, and the only files that can survive are among
the extra prefix-named files the subprocess left (on the success-recovery
path the first of them is renamed to the expected path and removed); in
particular an attempt whose subprocess creates no extra files leaves
nothing behind. -/
theorem expected_file_never_survives (url sid : Option String) (ts : Nat)
    (env : DownloadEnv) :
    (requestDownload url sid ts env).expectedSurvives = false ∧
      (requestDownload url sid ts env).extraSurvivors.Sublist env.extraFiles := by
  constructor
  · unfold requestDownload
    repeat' split
    all_goals rfl
  · unfold requestDownload
    repeat' split
    all_goals
      first
        | exact List.nil_sublist _
        | exact List.Sublist.refl _
        | exact List.tail_sublist _

/-! ## Claim C7 -/

/-- C7 counterexample: on a session already marked cancelled, `cancel`
followed by `clearCancel` does not restore the state that held before the
cancel — the pair of calls leaves the session unmarked. -/
theorem clear_cancel_restoration_counterexample :
    clearCancelSession (some "s")
        (cancelSession (some "s") { cancelled := ["s"], active := [] }).1 ≠
      { cancelled := ["s"], active := [] } := by decide

/-- C7 amended: `clearCancel` after `cancel` removes the cancelled mark,
so a later `requestDownload` under the same identifier (with no further
cancels in between) passes every cancellation checkpoint; and when the
session was not already marked before the cancel, the pair of calls
restores the previous cancellation state exactly. -/
theorem clear_cancel_enables_download (st : SessionState) (s : String) (hs : s ≠ "") :
    hasCancelled (clearCancelSession (some s) (cancelSession (some s) st).1).cancelled
        (some s) = false ∧
      (∀ (url : Option String) (ts : Nat) (env : DownloadEnv),
        env.cancelSet1 = (clearCancelSession (some s) (cancelSession (some s) st).1).cancelled →
        env.cancelSet2 = env.cancelSet1 → env.cancelSet3 = env.cancelSet1 →
        (requestDownload url (some s) ts env).result ≠ DLResult.cancelled) ∧
      (s ∉ st.cancelled → clearCancelSession (some s) (cancelSession (some s) st).1 = st) := by
  have hkey : (clearCancelSession (some s) (cancelSession (some s) st).1).cancelled =
      setDelete s (setAdd s st.cancelled) := by
    simp [clearCancelSession, cancelSession, hs]
  have hnc : hasCancelled (setDelete s (setAdd s st.cancelled)) (some s) = false := by
    show decide (s ∈ setDelete s (setAdd s st.cancelled)) = false
    rw [decide_eq_false_iff_not]
    intro hmem
    have hpred := (List.mem_filter.mp hmem).2
    simp at hpred
  refine ⟨by rw [hkey]; exact hnc, ?_, ?_⟩
  · intro url ts env he1 he2 he3
    apply requestDownload_not_cancelled
    · rw [he1, hkey]; exact hnc
    · rw [he2, he1, hkey]; exact hnc
    · rw [he3, he1, hkey]; exact hnc
  · intro hns
    have hdel : setDelete s (setAdd s st.cancelled) = st.cancelled := by
      unfold setAdd setDelete
      rw [if_neg hns, List.filter_append]
      have hself : st.cancelled.filter (fun x => x ≠ s) = st.cancelled := by
        rw [List.filter_eq_self]
        intro a ha
        simp only [ne_eq, decide_eq_true_eq]
        intro heq
        exact hns (heq ▸ ha)
      have hone : [s].filter (fun x => x ≠ s) = [] := by simp
      rw [hself, hone, List.append_nil]
    have hshape : clearCancelSession (some s) (cancelSession (some s) st).1 =
        { st with cancelled := setDelete s (setAdd s st.cancelled) } := by
      simp [clearCancelSession, cancelSession, hs]
    rw [hshape, hdel]

/-- Witness for the amended C7 on a concrete state. -/
theorem clear_cancel_enables_download_witness :
    hasCancelled
        (clearCancelSession (some "s")
          (cancelSession (some "s") { cancelled := ["other"], active := [] }).1).cancelled
        (some "s") = false ∧
      (requestDownload (some "u") (some "s") 1
        { cancelSet1 := ["other"], titleQuery := some "T", cancelSet2 := ["other"],
          procResult := Except.ok (), mp3Exists := true, extraFiles := [],
          cancelSet3 := ["other"], fileSize := 3 }).result ≠ DLResult.cancelled :=
  ⟨(clear_cancel_enables_download { cancelled := ["other"], active := [] } "s" (by decide)).1,
   (clear_cancel_enables_download { cancelled := ["other"], active := [] } "s" (by decide)).2.1
     (some "u") 1 _ (by decide) (by decide) (by decide)⟩

/-! ## Claim C10: the five-minute cancel timer (server.js line 351) -/

/-- `cancelledSessions` together with the pending `setTimeout` deletions
scheduled by `/api/cancel` calls: each entry is a fire time and the
session id that the timer will delete, unconditionally, when it fires. -/
structure TimedCancelState where
  marks : List String
  timers : List (Nat × String)
deriving Repr, DecidableEq

/-- Fire every timer due at `now`: each deletes its session id from the
set regardless of any later `clearCancel`/`cancel` activity. -/
def fireDue (now : Nat) (st : TimedCancelState) : TimedCancelState :=
  { marks := (st.timers.filter (fun tm => decide (tm.1 ≤ now))).foldl
      (fun m tm => setDelete tm.2 m) st.marks,
    timers := st.timers.filter (fun tm => !(decide (tm.1 ≤ now))) }

/-- `/api/cancel` at time `now`: mark the session and schedule a deletion
of the mark five minutes (300000 ms) later, keyed to this call. -/
def cancelAt (now : Nat) (sid : Option String) (st : TimedCancelState) : TimedCancelState :=
  let st1 := fireDue now st
  match sid with
  | none => st1
  | some s =>
    if s = "" then st1
    else { marks := setAdd s st1.marks, timers := st1.timers ++ [(now + 5 * 60 * 1000, s)] }

/-- `/api/clear-cancel` at time `now`: remove the mark; pending timers are
untouched. -/
def clearCancelAt (now : Nat) (sid : Option String) (st : TimedCancelState) : TimedCancelState :=
  let st1 := fireDue now st
  match sid with
  | none => st1
  | some s => if s = "" then st1 else { st1 with marks := setDelete s st1.marks }

/-- Whether the session is marked cancelled when observed at time `now`. -/
def isMarkedAt (now : Nat) (s : String) (st : TimedCancelState) : Bool :=
  decide (s ∈ (fireDue now st).marks)

/-- C10: each cancel schedules its own unconditional un-marking five
minutes later; for `cancel` at `t0`, `clearCancel` at `t1`, `cancel` at
`t2`, all within five minutes, the session is marked right after the
second cancel but the first call's timer removes that mark at `t0 + 5min`,
strictly less than five minutes after the most recent cancel. -/
theorem cancel_timer_unmarks_early (s : String) (t0 t1 t2 : Nat) (hs : s ≠ "")
    (_h01 : t0 ≤ t1) (h12 : t1 ≤ t2) (h02 : t0 < t2) (hwin : t2 < t0 + 5 * 60 * 1000) :
    isMarkedAt t2 s
        (cancelAt t2 (some s) (clearCancelAt t1 (some s)
          (cancelAt t0 (some s) { marks := [], timers := [] }))) = true ∧
      isMarkedAt (t0 + 5 * 60 * 1000) s
        (cancelAt t2 (some s) (clearCancelAt t1 (some s)
          (cancelAt t0 (some s) { marks := [], timers := [] }))) = false ∧
      t0 + 5 * 60 * 1000 < t2 + 5 * 60 * 1000 := by
  have e1 : cancelAt t0 (some s) { marks := [], timers := [] } =
      { marks := [s], timers := [(t0 + 5 * 60 * 1000, s)] } := by
    simp [cancelAt, fireDue, setAdd, hs]
  have hnotdue1 : decide (t0 + 5 * 60 * 1000 ≤ t1) = false := by
    rw [decide_eq_false_iff_not]; omega
  have e2 : clearCancelAt t1 (some s)
      { marks := [s], timers := [(t0 + 5 * 60 * 1000, s)] } =
      { marks := [], timers := [(t0 + 5 * 60 * 1000, s)] } := by
    simp [clearCancelAt, fireDue, setDelete, hs, hnotdue1]
  have hnotdue2 : decide (t0 + 5 * 60 * 1000 ≤ t2) = false := by
    rw [decide_eq_false_iff_not]; omega
  have e3 : cancelAt t2 (some s)
      { marks := [], timers := [(t0 + 5 * 60 * 1000, s)] } =
      { marks := [s], timers := [(t0 + 5 * 60 * 1000, s), (t2 + 5 * 60 * 1000, s)] } := by
    simp [cancelAt, fireDue, setAdd, hs, hnotdue2]
  rw [e1, e2, e3]
  refine ⟨?_, ?_, by omega⟩
  · have hd2 : decide (t2 + 5 * 60 * 1000 ≤ t2) = false := by
      rw [decide_eq_false_iff_not]; omega
    simp [isMarkedAt, fireDue, hnotdue2, hd2]
  · have hd1 : decide (t0 + 300000 ≤ t0 + 300000) = true := by simp
    have hd3 : decide (t2 + 300000 ≤ t0 + 300000) = false := by
      rw [decide_eq_false_iff_not]; omega
    have hno : ¬ t2 ≤ t0 := by omega
    simp [isMarkedAt, fireDue, setDelete, List.filter_cons, List.filter_nil,
      List.foldl_cons, List.foldl_nil, hd1, hd3, hno]

/-- Witness for C10 at concrete times 0, 1, 2: the session is unmarked by
time 300000 although its most recent cancel was at time 2. -/
theorem cancel_timer_unmarks_early_witness :
    isMarkedAt 2 "a"
        (cancelAt 2 (some "a") (clearCancelAt 1 (some "a")
          (cancelAt 0 (some "a") { marks := [], timers := [] }))) = true ∧
      isMarkedAt (0 + 5 * 60 * 1000) "a"
        (cancelAt 2 (some "a") (clearCancelAt 1 (some "a")
          (cancelAt 0 (some "a") { marks := [], timers := [] }))) = false :=
  ⟨(cancel_timer_unmarks_early "a" 0 1 2 (by decide) (by decide) (by decide) (by decide)
      (by decide)).1,
   (cancel_timer_unmarks_early "a" 0 1 2 (by decide) (by decide) (by decide) (by decide)
      (by decide)).2.1⟩

/-! ## Claim C8: the client batch driver (App.jsx lines 95-213) -/

inductive LinkStatus where
  | pending
  | downloading
  | converting
  | saved
  | failed
  | cancelled
deriving Repr, DecidableEq

/-- `downloadSingle` (App.jsx lines 95-165): after the fetch returns, a
set client cancel flag marks the link cancelled; otherwise a non-ok
response marks it failed; otherwise the blob is saved.  Returns the
link's terminal status and the boolean the function returns. -/
def downloadSingle (cancelledAfterFetch : Bool) (serverOk : Bool) : LinkStatus × Bool :=
  if cancelledAfterFetch then (.cancelled, false)
  else if !serverOk then (.failed, false)
  else (.saved, true)

/-- The sequential loop of `startProcessing` (lines 191-208): at the top
of each iteration a set cancel flag marks this and every remaining link
cancelled and breaks; otherwise the link is processed by `downloadSingle`
and the loop continues to the next index regardless of the outcome. -/
def processFrom (cancelTop cancelAfter serverOk : Nat → Bool) : Nat → Nat → List LinkStatus
  | _, 0 => []
  | i, rem + 1 =>
    if cancelTop i then List.replicate (rem + 1) LinkStatus.cancelled
    else (downloadSingle (cancelAfter i) (serverOk i)).1 ::
      processFrom cancelTop cancelAfter serverOk (i + 1) rem

/-- `startProcessing` over `n` links: the final status list, in order. -/
def startProcessing (n : Nat) (cancelTop cancelAfter serverOk : Nat → Bool) :
    List LinkStatus :=
  processFrom cancelTop cancelAfter serverOk 0 n

/-- With no cancellation, the loop maps each link to the terminal status
its own server response dictates. -/
theorem processFrom_no_cancel (serverOk : Nat → Bool) :
    ∀ (rem i : Nat),
      processFrom (fun _ => false) (fun _ => false) serverOk i rem =
        (List.range rem).map
          (fun j => if serverOk (i + j) then LinkStatus.saved else LinkStatus.failed) := by
  intro rem
  induction rem with
  | zero => intro i; rfl
  | succ m ih =>
    intro i
    rw [List.range_succ_eq_map, List.map_cons, List.map_map]
    simp only [processFrom, Bool.false_eq_true, if_false]
    rw [ih (i + 1)]
    congr 1
    · by_cases hok : serverOk i = true
      · simp [downloadSingle, hok]
      · simp only [Bool.not_eq_true] at hok
        simp [downloadSingle, hok]
    · apply List.map_congr_left
      intro a _
      have harg : i + 1 + a = i + (a + 1) := by omega
      simp [Function.comp, harg]

/-- C8: in an uncancelled batch of `n` links where exactly the `k`-th
server call fails, the driver records `failed` at position `k`, `saved`
at every other position, and still produces an outcome for every link —
a per-link failure does not halt the batch. -/
theorem batch_continues_after_failure (n k : Nat) (serverOk : Nat → Bool)
    (hk : k < n) (hfail : serverOk k = false)
    (hothers : ∀ j, j < n → j ≠ k → serverOk j = true) :
    (startProcessing n (fun _ => false) (fun _ => false) serverOk).length = n ∧
      (startProcessing n (fun _ => false) (fun _ => false) serverOk)[k]? =
        some LinkStatus.failed ∧
      (∀ j, j < n → j ≠ k →
        (startProcessing n (fun _ => false) (fun _ => false) serverOk)[j]? =
          some LinkStatus.saved) := by
  have hrun := processFrom_no_cancel serverOk n 0
  unfold startProcessing
  rw [hrun]
  refine ⟨by simp, ?_, ?_⟩
  · rw [List.getElem?_map, List.getElem?_range hk]
    simp [hfail]
  · intro j hj hjk
    rw [List.getElem?_map, List.getElem?_range hj]
    simp [hothers j hj hjk]

/-- Witness for C8: three links, the middle one failing, the others
saved. -/
theorem batch_continues_after_failure_witness :
    (startProcessing 3 (fun _ => false) (fun _ => false) (fun j => !(j == 1))).length = 3 ∧
      (startProcessing 3 (fun _ => false) (fun _ => false) (fun j => !(j == 1)))[1]? =
        some LinkStatus.failed ∧
      (startProcessing 3 (fun _ => false) (fun _ => false) (fun j => !(j == 1)))[2]? =
        some LinkStatus.saved := by
  have h := batch_continues_after_failure 3 1 (fun j => !(j == 1)) (by decide) (by decide)
    (fun j _ hjk => by simpa using hjk)
  exact ⟨h.1, h.2.1, h.2.2 2 (by decide) (by decide)⟩

end YTMP3
